import Mathlib

/-!
Verification of the throat-length models of OpenPNM
(`OpenPNM/Geometry/models/throat_length.py`) and of the dual cubic
lattice topology asserted by `test/unit/Network/CubicDualTest.py`.

The two Python functions `straight` and `voronoi` are shallowly embedded
as Lean functions over explicit list-based network and geometry records;
scipy float arrays become lists of real numbers, numpy fancy indexing
becomes positional lookup with a default (`List.getD`), and the one
fallible step of `voronoi` (`list.index`, which raises when the element
is absent) becomes an `Option`-valued search.
-/

namespace OpenPNM

/-- A 3-dimensional point (a row of a scipy coordinate array). -/
structure Pt where
  x : ℝ
  y : ℝ
  z : ℝ

/-- Componentwise difference of two points, as in `C1 - C2`. -/
def Pt.sub (a b : Pt) : Pt :=
  ⟨a.x - b.x, a.y - b.y, a.z - b.z⟩

/-- Sum of squared components, as in `_sp.sum((C1-C2)**2, axis=1)`. -/
def Pt.normSq (a : Pt) : ℝ :=
  a.x ^ 2 + a.y ^ 2 + a.z ^ 2

/-- Euclidean norm of a point, `_sp.sqrt` of the sum of squares
(also `_sp.linalg.norm` of a 3-vector). -/
noncomputable def Pt.norm (a : Pt) : ℝ :=
  Real.sqrt a.normSq

/-- The zero point, the out-of-range default for coordinate lookups. -/
def ptZero : Pt := ⟨0, 0, 0⟩

/-- The data the two models read from the network object:
`network['pore.coords']`, `network['throat.conns']`, the dynamic named
property lookup `network[name]`, and the subset query
`network.throats(label)`. -/
structure Network where
  poreCoords : List Pt
  throatConns : List (ℕ × ℕ)
  props : String → List ℝ
  throatsIn : String → List ℕ

/-- The data the two models read from the geometry object: its name
(used for the subset query), `geometry['pore.map']`,
`geometry['throat.map']`, `geometry['pore.centroid']` and
`geometry['throat.centroid']`. -/
structure Geometry where
  name : String
  poreMap : List ℕ
  throatMap : List ℕ
  poreCentroid : List Pt
  throatCentroid : List Pt

/-- The text of the warning `straight` logs when it clamps. -/
def negWarning : String :=
  "Negative throat lengths are calculated. Arbitrary positive length assigned (1e9 meters)"

/-- The floor constant the clamp branch of `straight` assigns
(`value[Ts] = 1e-9`). -/
noncomputable def floorLen : ℝ := 1e-9

/-- The bulk vector computed by `straight` over ALL network throats before
subsetting: for each row `c` of `throat.conns`,
`E - (D1 + D2) / 2` with `E` the Euclidean distance between the two
endpoint coordinates and `D1`, `D2` the two endpoint diameters fetched by
the given property name. -/
noncomputable def allThroatLengths (net : Network) (pore_diameter : String) : List ℝ :=
  net.throatConns.map (fun c =>
    let C1 := net.poreCoords.getD c.1 ptZero
    let C2 := net.poreCoords.getD c.2 ptZero
    let E := Pt.norm (Pt.sub C1 C2)
    let D1 := (net.props pore_diameter).getD c.1 0
    let D2 := (net.props pore_diameter).getD c.2 0
    E - (D1 + D2) / 2)

/-- The subsetting step `value = value[throats]` of `straight`, with
`throats = network.throats(geometry.name)`: the raw (pre-clamp) values of
the geometry's throats, in the geometry's throat order. -/
noncomputable def straightRaw (net : Network) (geom : Geometry)
    (pore_diameter : String) : List ℝ :=
  (net.throatsIn geom.name).map (fun t => (allThroatLengths net pore_diameter).getD t 0)

open Classical in
/-- The model `straight(network, geometry, pore_diameter)`.  Returns the
value vector together with the list of warnings logged during the call:
when some subsetted value is negative (`_sp.any(value < 0)`) one warning
is logged and every strictly negative entry (`_sp.where(value < 0)`) is
overwritten with `1e-9`; otherwise the raw vector is returned and nothing
is logged. -/
noncomputable def straight (net : Network) (geom : Geometry)
    (pore_diameter : String) : List ℝ × List String :=
  let value := straightRaw net geom pore_diameter
  if ∃ v ∈ value, v < 0 then
    (value.map (fun v => if v < 0 then floorLen else v), [negWarning])
  else
    (value, [])

/-- First index of `x` in a list, `list.index(x)` made total by returning
`none` when `x` is absent (Python raises ValueError there). -/
def idxOf (x : ℕ) : List ℕ → Option ℕ
  | [] => none
  | a :: as => if a = x then some 0 else (idxOf x as).map (· + 1)

/-- `idxOf` with default 0, for stating the value `voronoi` computes once
every lookup is known to succeed. -/
def idxOfD (x : ℕ) (l : List ℕ) : ℕ :=
  (idxOf x l).getD 0

/-- The accumulation loop of `voronoi`:
`for net_pore in net_pores: geom_pores.append(pore_map.index(net_pore))`,
failing (as the Python loop raises) as soon as some element is absent
from `pm`. -/
def lookupAll (pm : List ℕ) : List ℕ → Option (List ℕ)
  | [] => some []
  | p :: ps =>
    match idxOf p pm, lookupAll pm ps with
    | some j, some js => some (j :: js)
    | _, _ => none

/-- The model `voronoi(network, geometry)`.  Reads the geometry's
`throat.map`, fetches each mapped throat's endpoint pair from the
network's `throat.conns`, translates both endpoint columns to
geometry-local pore indices by searching `pore.map` (failing with `none`
where Python's `list.index` raises), and then returns, for each throat
`i`, `norm(v1[i]) + norm(v2[i])` with
`v1 = throat_centroids - pore_centroids[geom_pore1]` and
`v2 = throat_centroids - pore_centroids[geom_pore2]`. -/
noncomputable def voronoi (net : Network) (geom : Geometry) : Option (List ℝ) :=
  let throats := geom.throatMap
  let connections := throats.map (fun t => net.throatConns.getD t (0, 0))
  let netPore1 := connections.map Prod.fst
  let netPore2 := connections.map Prod.snd
  match lookupAll geom.poreMap netPore1, lookupAll geom.poreMap netPore2 with
  | some geomPore1, some geomPore2 =>
    some ((List.range connections.length).map (fun i =>
      Pt.norm (Pt.sub (geom.throatCentroid.getD i ptZero)
        (geom.poreCentroid.getD (geomPore1.getD i 0) ptZero)) +
      Pt.norm (Pt.sub (geom.throatCentroid.getD i ptZero)
        (geom.poreCentroid.getD (geomPore2.getD i 0) ptZero))))
  | _, _ => none

/-- The value list `voronoi` returns on the success path, written with the
successful lookups inlined (`idxOfD`). -/
noncomputable def voronoiVal (net : Network) (geom : Geometry) : List ℝ :=
  (List.range geom.throatMap.length).map (fun i =>
    let t := geom.throatMap.getD i 0
    let c := net.throatConns.getD t (0, 0)
    let tc := geom.throatCentroid.getD i ptZero
    Pt.norm (Pt.sub tc (geom.poreCentroid.getD (idxOfD c.1 geom.poreMap) ptZero)) +
    Pt.norm (Pt.sub tc (geom.poreCentroid.getD (idxOfD c.2 geom.poreMap) ptZero)))

/-- Modelled from the spec: the direct-indexing variant of `voronoi` it is
compared against for a geometry whose `pore.map` is the identity
permutation — each network-global pore index is used directly as the
centroid index, with no search. -/
noncomputable def voronoiDirect (net : Network) (geom : Geometry) : List ℝ :=
  (List.range geom.throatMap.length).map (fun i =>
    let t := geom.throatMap.getD i 0
    let c := net.throatConns.getD t (0, 0)
    let tc := geom.throatCentroid.getD i ptZero
    Pt.norm (Pt.sub tc (geom.poreCentroid.getD c.1 ptZero)) +
    Pt.norm (Pt.sub tc (geom.poreCentroid.getD c.2 ptZero)))

/-- State-passing rendering of `straight`: the mutable store the call can
see is the pair (network, geometry); the body only reads from it (its
single element assignment targets the fresh local array `value`), so the
store it returns is the store it received. -/
noncomputable def straightRun (net : Network) (geom : Geometry)
    (pore_diameter : String) : (Network × Geometry) × (List ℝ × List String) :=
  ((net, geom), straight net geom pore_diameter)

/-- State-passing rendering of `voronoi`: the body only reads from the
(network, geometry) store, so the store it returns is the store it
received. -/
noncomputable def voronoiRun (net : Network) (geom : Geometry) :
    (Network × Geometry) × Option (List ℝ) :=
  ((net, geom), voronoi net geom)

/-- Modelled from the spec: a pore of the dual cubic lattice built by the
`CubicDual` generator (whose source is not part of this excerpt; only its
test is).  The primary sub-lattice consists of the cubic lattice sites
(`cell`) together with one layer of boundary pores on each of the six
faces (`boundary f a b`, `f < 6`); the secondary sub-lattice (`corner`)
sits at the dual positions, the corners of the primary cells. -/
inductive DualPore where
  | cell (i j k : ℕ)
  | corner (i j k : ℕ)
  | boundary (f a b : ℕ)

/-- Enumerate `f i j k` over the grid `[0,a) × [0,b) × [0,c)`. -/
def grid3 {α : Type} (a b c : ℕ) (f : ℕ → ℕ → ℕ → α) : List α :=
  (List.range a).flatMap (fun i =>
    (List.range b).flatMap (fun j =>
      (List.range c).map (fun k => f i j k)))

/-- Modelled from the spec: the primary-labelled pores of `CubicDual`
with cubic shape `n × n × n` — the `n ^ 3` lattice sites plus `n ^ 2`
boundary pores on each of the six faces. -/
def primaryPores (n : ℕ) : List DualPore :=
  grid3 n n n DualPore.cell ++
    (List.range 6).flatMap (fun f => grid3 n n 1 (fun a b _ => DualPore.boundary f a b))

/-- Modelled from the spec: the secondary-labelled pores of `CubicDual` —
the dual lattice at the `(n+1) ^ 3` cell corners. -/
def secondaryPores (n : ℕ) : List DualPore :=
  grid3 (n + 1) (n + 1) (n + 1) DualPore.corner

/-- Modelled from the spec: the throats internal to the primary
sub-lattice — nearest-neighbour bonds of the cubic lattice plus one bond
from each boundary pore to the lattice site it pads. -/
def primaryThroats (n : ℕ) : List (DualPore × DualPore) :=
  grid3 (n - 1) n n (fun i j k => (DualPore.cell i j k, DualPore.cell (i + 1) j k)) ++
  grid3 n (n - 1) n (fun i j k => (DualPore.cell i j k, DualPore.cell i (j + 1) k)) ++
  grid3 n n (n - 1) (fun i j k => (DualPore.cell i j k, DualPore.cell i j (k + 1))) ++
  grid3 n n 1 (fun a b _ => (DualPore.boundary 0 a b, DualPore.cell 0 a b)) ++
  grid3 n n 1 (fun a b _ => (DualPore.boundary 1 a b, DualPore.cell (n - 1) a b)) ++
  grid3 n n 1 (fun a b _ => (DualPore.boundary 2 a b, DualPore.cell a 0 b)) ++
  grid3 n n 1 (fun a b _ => (DualPore.boundary 3 a b, DualPore.cell a (n - 1) b)) ++
  grid3 n n 1 (fun a b _ => (DualPore.boundary 4 a b, DualPore.cell a b 0)) ++
  grid3 n n 1 (fun a b _ => (DualPore.boundary 5 a b, DualPore.cell a b (n - 1)))

/-- Modelled from the spec: the throats internal to the secondary
sub-lattice — nearest-neighbour bonds of the dual `(n+1) ^ 3` lattice. -/
def secondaryThroats (n : ℕ) : List (DualPore × DualPore) :=
  grid3 n (n + 1) (n + 1) (fun i j k => (DualPore.corner i j k, DualPore.corner (i + 1) j k)) ++
  grid3 (n + 1) n (n + 1) (fun i j k => (DualPore.corner i j k, DualPore.corner i (j + 1) k)) ++
  grid3 (n + 1) (n + 1) n (fun i j k => (DualPore.corner i j k, DualPore.corner i j (k + 1)))

/-- Modelled from the spec: the interconnect throats joining the two
sub-lattices — each lattice site to the eight corners of its cell, and
each boundary pore to the four corners of the face it pads. -/
def interconnectThroats (n : ℕ) : List (DualPore × DualPore) :=
  (grid3 n n n (fun i j k => (i, j, k))).flatMap (fun p =>
    grid3 2 2 2 (fun a b c =>
      (DualPore.cell p.1 p.2.1 p.2.2, DualPore.corner (p.1 + a) (p.2.1 + b) (p.2.2 + c)))) ++
  (grid3 n n 1 (fun a b _ => (a, b))).flatMap (fun p =>
    grid3 2 2 1 (fun da db _ =>
      (DualPore.boundary 0 p.1 p.2, DualPore.corner 0 (p.1 + da) (p.2 + db)))) ++
  (grid3 n n 1 (fun a b _ => (a, b))).flatMap (fun p =>
    grid3 2 2 1 (fun da db _ =>
      (DualPore.boundary 1 p.1 p.2, DualPore.corner n (p.1 + da) (p.2 + db)))) ++
  (grid3 n n 1 (fun a b _ => (a, b))).flatMap (fun p =>
    grid3 2 2 1 (fun da db _ =>
      (DualPore.boundary 2 p.1 p.2, DualPore.corner (p.1 + da) 0 (p.2 + db)))) ++
  (grid3 n n 1 (fun a b _ => (a, b))).flatMap (fun p =>
    grid3 2 2 1 (fun da db _ =>
      (DualPore.boundary 3 p.1 p.2, DualPore.corner (p.1 + da) n (p.2 + db)))) ++
  (grid3 n n 1 (fun a b _ => (a, b))).flatMap (fun p =>
    grid3 2 2 1 (fun da db _ =>
      (DualPore.boundary 4 p.1 p.2, DualPore.corner (p.1 + da) (p.2 + db) 0))) ++
  (grid3 n n 1 (fun a b _ => (a, b))).flatMap (fun p =>
    grid3 2 2 1 (fun da db _ =>
      (DualPore.boundary 5 p.1 p.2, DualPore.corner (p.1 + da) (p.2 + db) n)))

/-- All pores of the dual cubic lattice. -/
def dualPores (n : ℕ) : List DualPore :=
  primaryPores n ++ secondaryPores n

/-- All throats of the dual cubic lattice. -/
def dualThroats (n : ℕ) : List (DualPore × DualPore) :=
  primaryThroats n ++ secondaryThroats n ++ interconnectThroats n

/-- Whether a pore carries the label `primary`. -/
def isPrimaryPore : DualPore → Bool
  | DualPore.cell _ _ _ => true
  | DualPore.boundary _ _ _ => true
  | DualPore.corner _ _ _ => false

/-- Whether a pore carries the label `secondary`. -/
def isSecondaryPore : DualPore → Bool
  | DualPore.corner _ _ _ => true
  | _ => false

/-- Whether a pore carries the label `surface`: boundary pores and the
corners lying on a face of the `[0, n]` cube. -/
def isSurfacePore (n : ℕ) : DualPore → Bool
  | DualPore.boundary _ _ _ => true
  | DualPore.corner i j k => i = 0 || i = n || j = 0 || j = n || k = 0 || k = n
  | DualPore.cell _ _ _ => false

/-- Whether a pore lies on face `f` of the domain (`f < 6`, two faces
per axis). -/
def onFace (n f : ℕ) : DualPore → Bool
  | DualPore.boundary g _ _ => g = f
  | DualPore.corner i j k =>
    if f = 0 then i = 0 else if f = 1 then i = n
    else if f = 2 then j = 0 else if f = 3 then j = n
    else if f = 4 then k = 0 else if f = 5 then k = n else false
  | DualPore.cell _ _ _ => false

/-- Whether a throat carries the label `surface`: both endpoints are
surface pores. -/
def isSurfaceThroat (n : ℕ) (t : DualPore × DualPore) : Bool :=
  isSurfacePore n t.1 && isSurfacePore n t.2

/-! ### Lemmas about the index search and the translation loop -/

theorem idxOf_eq_none_iff (x : ℕ) (l : List ℕ) : idxOf x l = none ↔ x ∉ l := by
  induction l with
  | nil => simp [idxOf]
  | cons a as ih =>
    by_cases h : a = x
    · simp [idxOf, h]
    · simp only [idxOf, h, if_false, Option.map_eq_none', ih, List.mem_cons]
      constructor
      · intro hx hor
        rcases hor with rfl | hmem
        · exact h rfl
        · exact hx hmem
      · intro hx hmem
        exact hx (Or.inr hmem)

theorem idxOf_eq_some_iff (x j : ℕ) (l : List ℕ) :
    idxOf x l = some j ↔ l[j]? = some x ∧ ∀ k, k < j → l[k]? ≠ some x := by
  induction l generalizing j with
  | nil => simp [idxOf]
  | cons a as ih =>
    cases j with
    | zero =>
      by_cases h : a = x
      · simp [idxOf, h]
      · simp only [idxOf, h, if_false, List.getElem?_cons_zero]
        constructor
        · intro hj
          rcases Option.map_eq_some'.mp hj with ⟨m', _, he⟩
          exact absurd he (by omega)
        · rintro ⟨ha, -⟩
          exact absurd (Option.some.inj ha) h
    | succ m =>
      by_cases h : a = x
      · subst h
        simp only [idxOf, if_pos rfl, List.getElem?_cons_succ]
        constructor
        · intro hj
          have := Option.some.inj hj
          omega
        · rintro ⟨-, hk⟩
          have h0 := hk 0 (Nat.succ_pos m)
          simp at h0
      · simp only [idxOf, h, if_false, List.getElem?_cons_succ]
        constructor
        · intro hj
          rcases Option.map_eq_some'.mp hj with ⟨m', hm', he⟩
          have hm : m' = m := by omega
          rw [hm] at hm'
          rcases (ih m).mp hm' with ⟨h1, h2⟩
          refine ⟨h1, fun k hk => ?_⟩
          cases k with
          | zero =>
            simp only [List.getElem?_cons_zero, ne_eq, Option.some.injEq]
            intro he2
            exact h he2
          | succ k2 =>
            simp only [List.getElem?_cons_succ]
            exact h2 k2 (by omega)
        · rintro ⟨h1, h2⟩
          have hsome : idxOf x as = some m := by
            refine (ih m).mpr ⟨h1, fun k hk => ?_⟩
            have := h2 (k + 1) (by omega)
            simpa using this
          simp [hsome]

theorem idxOf_range (x m : ℕ) (h : x < m) : idxOf x (List.range m) = some x := by
  rw [idxOf_eq_some_iff]
  refine ⟨by simpa using List.getElem?_range h, fun k hk => ?_⟩
  rw [List.getElem?_range (hk.trans h)]
  simp
  omega

theorem lookupAll_eq_none_iff (pm l : List ℕ) :
    lookupAll pm l = none ↔ ∃ p ∈ l, p ∉ pm := by
  induction l with
  | nil => simp [lookupAll]
  | cons p ps ih =>
    cases h1 : idxOf p pm with
    | none =>
      simp only [lookupAll, h1]
      have hp : p ∉ pm := (idxOf_eq_none_iff p pm).mp h1
      simp [hp]
    | some j =>
      have hp : p ∈ pm := by
        by_contra hc
        rw [(idxOf_eq_none_iff p pm).mpr hc] at h1
        exact Option.noConfusion h1
      cases h2 : lookupAll pm ps with
      | none =>
        simp only [lookupAll, h1, h2]
        simpa using Or.inr (ih.mp h2)
      | some js =>
        simp only [lookupAll, h1, h2]
        constructor
        · intro hc
          exact Option.noConfusion hc
        · rintro ⟨q, hq, hqn⟩
          rcases List.mem_cons.mp hq with rfl | hq2
          · exact absurd hp hqn
          · have hnone : lookupAll pm ps = none := ih.mpr ⟨q, hq2, hqn⟩
            rw [h2] at hnone
            exact Option.noConfusion hnone

theorem lookupAll_eq_some (pm l : List ℕ) (h : ∀ p ∈ l, p ∈ pm) :
    lookupAll pm l = some (l.map (fun p => idxOfD p pm)) := by
  induction l with
  | nil => simp [lookupAll]
  | cons p ps ih =>
    have hp : p ∈ pm := h p (List.mem_cons_self p ps)
    have h1 : idxOf p pm = some (idxOfD p pm) := by
      cases he : idxOf p pm with
      | none => exact absurd ((idxOf_eq_none_iff p pm).mp he) (not_not.mpr hp)
      | some j => simp [idxOfD, he]
    have h2 := ih (fun q hq => h q (List.mem_cons_of_mem p hq))
    simp [lookupAll, h1, h2]

theorem getD_map_of_lt {α β : Type} (g : α → β) (l : List α) (i : ℕ)
    (h : i < l.length) (d : α) (d' : β) :
    (l.map g).getD i d' = g (l.getD i d) := by
  rw [List.getD_eq_getElem _ _ (by simpa using h), List.getD_eq_getElem _ _ h,
    List.getElem_map]

theorem voronoi_eq_some (net : Network) (geom : Geometry)
    (h : ∀ t ∈ geom.throatMap,
      (net.throatConns.getD t (0, 0)).1 ∈ geom.poreMap ∧
      (net.throatConns.getD t (0, 0)).2 ∈ geom.poreMap) :
    voronoi net geom = some (voronoiVal net geom) := by
  have h1 : ∀ p ∈ geom.throatMap.map
      (Prod.fst ∘ fun t => net.throatConns.getD t (0, 0)), p ∈ geom.poreMap := by
    intro p hp
    simp only [List.mem_map, Function.comp_apply] at hp
    obtain ⟨t, ht, rfl⟩ := hp
    exact (h t ht).1
  have h2 : ∀ p ∈ geom.throatMap.map
      (Prod.snd ∘ fun t => net.throatConns.getD t (0, 0)), p ∈ geom.poreMap := by
    intro p hp
    simp only [List.mem_map, Function.comp_apply] at hp
    obtain ⟨t, ht, rfl⟩ := hp
    exact (h t ht).2
  simp only [voronoi, List.map_map]
  rw [lookupAll_eq_some _ _ h1, lookupAll_eq_some _ _ h2]
  refine congrArg some ?_
  rw [voronoiVal]
  simp only [List.length_map, List.map_map]
  apply List.map_congr_left
  intro i hi
  rw [List.mem_range] at hi
  rw [getD_map_of_lt _ _ _ (by simpa using hi) 0 0,
      getD_map_of_lt _ _ _ (by simpa using hi) 0 0]
  rfl

theorem voronoi_eq_none_iff (net : Network) (geom : Geometry) :
    voronoi net geom = none ↔
      ∃ t ∈ geom.throatMap,
        ((net.throatConns.getD t (0, 0)).1 ∉ geom.poreMap ∨
         (net.throatConns.getD t (0, 0)).2 ∉ geom.poreMap) := by
  simp only [voronoi, List.map_map]
  cases hA : lookupAll geom.poreMap (geom.throatMap.map
      (Prod.fst ∘ fun t => net.throatConns.getD t (0, 0))) with
  | none =>
    simp only [true_iff]
    obtain ⟨p, hp, hpn⟩ := (lookupAll_eq_none_iff _ _).mp hA
    simp only [List.mem_map, Function.comp_apply] at hp
    obtain ⟨t, ht, rfl⟩ := hp
    exact ⟨t, ht, Or.inl hpn⟩
  | some g1 =>
    have hAll1 : ∀ t ∈ geom.throatMap, (net.throatConns.getD t (0, 0)).1 ∈ geom.poreMap := by
      intro t ht
      by_contra hc
      have : lookupAll geom.poreMap (geom.throatMap.map
          (Prod.fst ∘ fun t => net.throatConns.getD t (0, 0))) = none :=
        (lookupAll_eq_none_iff _ _).mpr
          ⟨_, List.mem_map.mpr ⟨t, ht, rfl⟩, hc⟩
      rw [hA] at this
      exact Option.noConfusion this
    cases hB : lookupAll geom.poreMap (geom.throatMap.map
        (Prod.snd ∘ fun t => net.throatConns.getD t (0, 0))) with
    | none =>
      simp only [true_iff]
      obtain ⟨p, hp, hpn⟩ := (lookupAll_eq_none_iff _ _).mp hB
      simp only [List.mem_map, Function.comp_apply] at hp
      obtain ⟨t, ht, rfl⟩ := hp
      exact ⟨t, ht, Or.inr hpn⟩
    | some g2 =>
      have hAll2 : ∀ t ∈ geom.throatMap, (net.throatConns.getD t (0, 0)).2 ∈ geom.poreMap := by
        intro t ht
        by_contra hc
        have : lookupAll geom.poreMap (geom.throatMap.map
            (Prod.snd ∘ fun t => net.throatConns.getD t (0, 0))) = none :=
          (lookupAll_eq_none_iff _ _).mpr
            ⟨_, List.mem_map.mpr ⟨t, ht, rfl⟩, hc⟩
        rw [hB] at this
        exact Option.noConfusion this
      constructor
      · intro hc
        exact Option.noConfusion hc
      · rintro ⟨t, ht, hor⟩
        rcases hor with hm | hm
        · exact absurd (hAll1 t ht) hm
        · exact absurd (hAll2 t ht) hm

end OpenPNM

namespace OpenPNM

/-! ### Concrete scenario inputs -/

/-- Geometry owning the single throat 0 of the two-pore scenario
networks, with pores 0 and 1. -/
def exGeom : Geometry where
  name := "geo"
  poreMap := [0, 1]
  throatMap := [0]
  poreCentroid := []
  throatCentroid := []

/-- Scenario network of the spec: two pores at (0,0,0) and (3,0,0),
diameter 1 each, one throat connecting them, owned by geometry "geo". -/
noncomputable def c1Net : Network where
  poreCoords := [⟨0, 0, 0⟩, ⟨3, 0, 0⟩]
  throatConns := [(0, 1)]
  props := fun s => if s = "pore.diameter" then [1, 1] else []
  throatsIn := fun s => if s = "geo" then [0] else []

/-- Scenario network of the spec: same two pores, diameter 10 each, so
the raw length is 3 - 10 = -7. -/
noncomputable def c2Net : Network where
  poreCoords := [⟨0, 0, 0⟩, ⟨3, 0, 0⟩]
  throatConns := [(0, 1)]
  props := fun s => if s = "pore.diameter" then [10, 10] else []
  throatsIn := fun s => if s = "geo" then [0] else []

/-- Scenario network: same two pores, diameter 3 each, so the raw length
is exactly 3 - 3 = 0. -/
noncomputable def c9Net : Network where
  poreCoords := [⟨0, 0, 0⟩, ⟨3, 0, 0⟩]
  throatConns := [(0, 1)]
  props := fun s => if s = "pore.diameter" then [3, 3] else []
  throatsIn := fun s => if s = "geo" then [0] else []

/-- Scenario network with two throats: throat 0 (NOT owned by geometry
"geo") has raw length -7, throat 1 (owned) has raw length 2. -/
noncomputable def c10Net : Network where
  poreCoords := [⟨0, 0, 0⟩, ⟨3, 0, 0⟩, ⟨0, 10, 0⟩, ⟨3, 10, 0⟩]
  throatConns := [(0, 1), (2, 3)]
  props := fun s => if s = "pore.diameter" then [10, 10, 1, 1] else []
  throatsIn := fun s => if s = "geo" then [1] else []

theorem sqrt_nine : Real.sqrt 9 = 3 := by
  rw [show (9 : ℝ) = 3 ^ 2 by norm_num]
  exact Real.sqrt_sq (by norm_num)

theorem c1Net_raw : straightRaw c1Net exGeom "pore.diameter" = [2] := by
  simp only [straightRaw, allThroatLengths, c1Net, exGeom, Pt.sub, Pt.normSq, Pt.norm,
    if_pos rfl, List.map_cons, List.map_nil, List.getD_cons_zero]
  norm_num [sqrt_nine]

theorem c2Net_raw : straightRaw c2Net exGeom "pore.diameter" = [-7] := by
  simp only [straightRaw, allThroatLengths, c2Net, exGeom, Pt.sub, Pt.normSq, Pt.norm,
    if_pos rfl, List.map_cons, List.map_nil, List.getD_cons_zero]
  norm_num [sqrt_nine]

theorem c9Net_raw : straightRaw c9Net exGeom "pore.diameter" = [0] := by
  simp only [straightRaw, allThroatLengths, c9Net, exGeom, Pt.sub, Pt.normSq, Pt.norm,
    if_pos rfl, List.map_cons, List.map_nil, List.getD_cons_zero]
  norm_num [sqrt_nine]

theorem c10Net_raw : straightRaw c10Net exGeom "pore.diameter" = [2] := by
  simp only [straightRaw, allThroatLengths, c10Net, exGeom, Pt.sub, Pt.normSq, Pt.norm,
    if_pos rfl, List.map_cons, List.map_nil, List.getD_cons_zero, List.getD_cons_succ]
  norm_num [sqrt_nine]

theorem c10Net_all : allThroatLengths c10Net "pore.diameter" = [-7, 2] := by
  simp only [allThroatLengths, c10Net, Pt.sub, Pt.normSq, Pt.norm, if_pos rfl,
    List.map_cons, List.map_nil, List.getD_cons_zero, List.getD_cons_succ]
  norm_num [sqrt_nine]

theorem straight_fst_length (net : Network) (geom : Geometry) (pd : String) :
    (straight net geom pd).1.length = (net.throatsIn geom.name).length := by
  rw [straight]
  split_ifs with h
  · simp [straightRaw]
  · simp [straightRaw]

/-! ### Claims -/

/-- C1: for every network and geometry whose geometry throat indices are
valid, `straight` returns one value per throat of the geometry, in the
geometry's throat order, and the value before clamping at position `i`
equals the Euclidean distance between the two endpoint pore coordinates
of the `i`-th geometry throat minus the average of the two endpoint
diameters; in particular, for a network with two pores at (0,0,0) and
(3,0,0), diameter 1 each, and one throat connecting them, the result is
2.0 (with no warning). -/
theorem straight_per_throat_formula (net : Network) (geom : Geometry) (pd : String)
    (hT : ∀ t ∈ net.throatsIn geom.name, t < net.throatConns.length) :
    (straight net geom pd).1.length = (net.throatsIn geom.name).length ∧
    (∀ (i t : ℕ), (net.throatsIn geom.name)[i]? = some t →
      ∀ c : ℕ × ℕ, net.throatConns[t]? = some c →
      (straightRaw net geom pd)[i]? = some
        (Pt.norm (Pt.sub (net.poreCoords.getD c.1 ptZero) (net.poreCoords.getD c.2 ptZero)) -
          ((net.props pd).getD c.1 0 + (net.props pd).getD c.2 0) / 2)) ∧
    straight c1Net exGeom "pore.diameter" = ([2], []) := by
  refine ⟨straight_fst_length net geom pd, ?_, ?_⟩
  · intro i t hit c htc
    have ht : t < net.throatConns.length := hT t (List.getElem?_mem hit)
    rw [straightRaw, List.getElem?_map, hit, Option.map_some']
    have hc : net.throatConns.getD t (0, 0) = c := by
      rw [List.getD_eq_getElem _ _ ht]
      exact Option.some.inj (by rw [← List.getElem?_eq_getElem ht, htc])
    rw [allThroatLengths, getD_map_of_lt _ _ _ ht (0, 0) 0, hc]
  · have hnn : ¬∃ v ∈ ([2] : List ℝ), v < 0 := by
      rintro ⟨v, hv, hneg⟩
      rw [List.mem_singleton] at hv
      subst hv
      norm_num at hneg
    rw [straight, c1Net_raw, if_neg hnn]

/-- C1 witness: the theorem applied to the two-pore scenario network. -/
theorem straight_per_throat_formula_witness :
    (∀ t ∈ c1Net.throatsIn exGeom.name, t < c1Net.throatConns.length) ∧
    (straight c1Net exGeom "pore.diameter").1.length = 1 ∧
    (straightRaw c1Net exGeom "pore.diameter")[0]? = some
      (Pt.norm (Pt.sub (c1Net.poreCoords.getD 0 ptZero) (c1Net.poreCoords.getD 1 ptZero)) -
        ((c1Net.props "pore.diameter").getD 0 0 + (c1Net.props "pore.diameter").getD 1 0) / 2) := by
  have hT : ∀ t ∈ c1Net.throatsIn exGeom.name, t < c1Net.throatConns.length := by
    intro t ht
    simp [c1Net, exGeom] at ht
    subst ht
    simp [c1Net]
  obtain ⟨h1, h2, -⟩ := straight_per_throat_formula c1Net exGeom "pore.diameter" hT
  refine ⟨hT, ?_, ?_⟩
  · rw [h1]
    simp [c1Net, exGeom]
  · exact h2 0 0 (by simp [c1Net, exGeom]) (0, 1) (by simp [c1Net])

/-- C2: whenever some raw geometry-throat length is negative, `straight`
logs the warning, returns a complete vector (one entry per geometry
throat), and every strictly negative raw entry comes back as the
positive floor constant 1e-9. -/
theorem straight_clamp_negative (net : Network) (geom : Geometry) (pd : String)
    (hneg : ∃ v ∈ straightRaw net geom pd, v < 0) :
    (straight net geom pd).2 = [negWarning] ∧
    (straight net geom pd).1.length = (net.throatsIn geom.name).length ∧
    (∀ (i : ℕ) (v : ℝ), (straightRaw net geom pd)[i]? = some v → v < 0 →
      (straight net geom pd).1[i]? = some floorLen) ∧
    (0 : ℝ) < floorLen := by
  refine ⟨?_, straight_fst_length net geom pd, ?_, ?_⟩
  · rw [straight, if_pos hneg]
  · intro i v hv hlt
    rw [straight, if_pos hneg]
    simp only [List.getElem?_map, hv, Option.map_some', if_pos hlt]
  · rw [floorLen]
    norm_num

/-- C2 witness: the diameter-10 scenario (raw length -7) is clamped to
the floor constant and warned about. -/
theorem straight_clamp_negative_witness :
    (∃ v ∈ straightRaw c2Net exGeom "pore.diameter", v < 0) ∧
    (straight c2Net exGeom "pore.diameter").2 = [negWarning] ∧
    (straight c2Net exGeom "pore.diameter").1[0]? = some floorLen := by
  have hneg : ∃ v ∈ straightRaw c2Net exGeom "pore.diameter", v < 0 := by
    rw [c2Net_raw]
    exact ⟨-7, List.mem_singleton_self _, by norm_num⟩
  obtain ⟨h1, -, h3, -⟩ := straight_clamp_negative c2Net exGeom "pore.diameter" hneg
  exact ⟨hneg, h1, h3 0 (-7) (by rw [c2Net_raw]; rfl) (by norm_num)⟩

/-- C9: the clamp comparison is strict — a raw length of exactly zero is
returned unchanged, no warning is emitted when no entry is strictly
negative, and every entry of the returned vector is nonnegative. -/
theorem straight_zero_unclamped (net : Network) (geom : Geometry) (pd : String) :
    (∀ i : ℕ, (straightRaw net geom pd)[i]? = some 0 →
      (straight net geom pd).1[i]? = some 0) ∧
    ((∀ v ∈ straightRaw net geom pd, ¬v < 0) →
      straight net geom pd = (straightRaw net geom pd, [])) ∧
    (∀ v ∈ (straight net geom pd).1, 0 ≤ v) := by
  refine ⟨?_, ?_, ?_⟩
  · intro i hi
    rw [straight]
    split_ifs with h
    · simp only [List.getElem?_map, hi, Option.map_some']
      norm_num
    · exact hi
  · intro h
    rw [straight, if_neg]
    rintro ⟨v, hv, hlt⟩
    exact h v hv hlt
  · intro v hv
    rw [straight] at hv
    split_ifs at hv with h
    · simp only [List.mem_map] at hv
      obtain ⟨w, -, rfl⟩ := hv
      split_ifs with hw
      · rw [floorLen]
        norm_num
      · exact le_of_not_lt hw
    · simp only at hv
      by_contra hc
      exact h ⟨v, hv, lt_of_not_le hc⟩

/-- C9 witness: the diameter-3 scenario (raw length exactly 0) comes back
unchanged, with no warning. -/
theorem straight_zero_unclamped_witness :
    (straightRaw c9Net exGeom "pore.diameter")[0]? = some 0 ∧
    (straight c9Net exGeom "pore.diameter").1[0]? = some 0 ∧
    (straight c9Net exGeom "pore.diameter").2 = [] := by
  have h0 : (straightRaw c9Net exGeom "pore.diameter")[0]? = some 0 := by
    rw [c9Net_raw]
    rfl
  obtain ⟨h1, h2, -⟩ := straight_zero_unclamped c9Net exGeom "pore.diameter"
  refine ⟨h0, h1 0 h0, ?_⟩
  rw [h2 ?_]
  rw [c9Net_raw]
  intro v hv
  rw [List.mem_singleton] at hv
  subst hv
  norm_num

/-- C10: one call to `straight` logs at most one warning no matter how
many geometry throats are negative, and logs none when no geometry
throat has a negative raw length — even if throats outside the geometry
do. -/
theorem straight_single_warning (net : Network) (geom : Geometry) (pd : String) :
    (straight net geom pd).2.length ≤ 1 ∧
    ((∀ v ∈ straightRaw net geom pd, ¬v < 0) → (straight net geom pd).2 = []) := by
  constructor
  · rw [straight]
    split_ifs with h
    · simp
    · simp
  · intro h
    rw [straight, if_neg]
    rintro ⟨v, hv, hlt⟩
    exact h v hv hlt

/-- Example network for the voronoi claims: one throat joining pores 0
and 1 (coordinates and diameters are not read by `voronoi`). -/
noncomputable def vNet : Network where
  poreCoords := []
  throatConns := [(0, 1)]
  props := fun _ => []
  throatsIn := fun _ => []

/-- Example geometry for the voronoi claims: identity pore map, one
throat, centroids at (0,0,0), (1,0,0) (pores) and (0,0,0) (throat). -/
noncomputable def vGeom : Geometry where
  name := "vor"
  poreMap := [0, 1]
  throatMap := [0]
  poreCentroid := [⟨0, 0, 0⟩, ⟨1, 0, 0⟩]
  throatCentroid := [⟨0, 0, 0⟩]

/-- Example network whose single throat references pore 2, which is
absent from `vGeom.poreMap` — the cross-geometry failure case. -/
noncomputable def v4Net : Network where
  poreCoords := []
  throatConns := [(0, 2)]
  props := fun _ => []
  throatsIn := fun _ => []

/-- C3: when every pore referenced through the geometry's throat map is
present in its pore map, `voronoi` returns one value per throat in
throat-map order, and the value of throat `i` is the norm of (throat
centroid − pore1 centroid) plus the norm of (throat centroid − pore2
centroid), the pore centroids being found via the geometry-local indices
of the two endpoints. -/
theorem voronoi_per_throat_formula (net : Network) (geom : Geometry)
    (hfound : ∀ t ∈ geom.throatMap,
      (net.throatConns.getD t (0, 0)).1 ∈ geom.poreMap ∧
      (net.throatConns.getD t (0, 0)).2 ∈ geom.poreMap) :
    ∃ v, voronoi net geom = some v ∧ v.length = geom.throatMap.length ∧
      ∀ (i t : ℕ), geom.throatMap[i]? = some t →
        ∀ (j1 j2 : ℕ),
          idxOf (net.throatConns.getD t (0, 0)).1 geom.poreMap = some j1 →
          idxOf (net.throatConns.getD t (0, 0)).2 geom.poreMap = some j2 →
          v[i]? = some
            (Pt.norm (Pt.sub (geom.throatCentroid.getD i ptZero)
              (geom.poreCentroid.getD j1 ptZero)) +
             Pt.norm (Pt.sub (geom.throatCentroid.getD i ptZero)
              (geom.poreCentroid.getD j2 ptZero))) := by
  refine ⟨voronoiVal net geom, voronoi_eq_some net geom hfound, by simp [voronoiVal], ?_⟩
  intro i t hit j1 j2 hj1 hj2
  have hi : i < geom.throatMap.length := (List.getElem?_eq_some_iff.mp hit).1
  have hti : geom.throatMap.getD i 0 = t := by
    rw [List.getD_eq_getElem _ _ hi]
    exact (List.getElem?_eq_some_iff.mp hit).2
  simp only [voronoiVal, List.getElem?_map, List.getElem?_range hi, Option.map_some',
    Option.some.injEq]
  rw [hti]
  have e1 : idxOfD (net.throatConns.getD t (0, 0)).1 geom.poreMap = j1 := by
    rw [idxOfD, hj1]
    rfl
  have e2 : idxOfD (net.throatConns.getD t (0, 0)).2 geom.poreMap = j2 := by
    rw [idxOfD, hj2]
    rfl
  rw [e1, e2]

/-- C3 witness: the theorem applied to the one-throat example, whose
value is |(0,0,0)-(0,0,0)| + |(0,0,0)-(1,0,0)|. -/
theorem voronoi_per_throat_formula_witness :
    (∀ t ∈ vGeom.throatMap,
      (vNet.throatConns.getD t (0, 0)).1 ∈ vGeom.poreMap ∧
      (vNet.throatConns.getD t (0, 0)).2 ∈ vGeom.poreMap) ∧
    ∃ v, voronoi vNet vGeom = some v ∧ v.length = 1 ∧
      v[0]? = some
        (Pt.norm (Pt.sub (vGeom.throatCentroid.getD 0 ptZero)
          (vGeom.poreCentroid.getD 0 ptZero)) +
         Pt.norm (Pt.sub (vGeom.throatCentroid.getD 0 ptZero)
          (vGeom.poreCentroid.getD 1 ptZero))) := by
  have hfound : ∀ t ∈ vGeom.throatMap,
      (vNet.throatConns.getD t (0, 0)).1 ∈ vGeom.poreMap ∧
      (vNet.throatConns.getD t (0, 0)).2 ∈ vGeom.poreMap := by
    intro t ht
    simp [vGeom] at ht
    subst ht
    simp [vNet, vGeom]
  obtain ⟨v, hv, hlen, hval⟩ := voronoi_per_throat_formula vNet vGeom hfound
  refine ⟨hfound, v, hv, by rw [hlen]; simp [vGeom], ?_⟩
  refine hval 0 0 (by simp [vGeom]) 0 1 ?_ ?_
  · have : (vNet.throatConns.getD 0 (0, 0)).1 = 0 := by simp [vNet]
    rw [this]
    simp only [vGeom]
    simp [idxOf]
  · have : (vNet.throatConns.getD 0 (0, 0)).2 = 1 := by simp [vNet]
    rw [this]
    simp only [vGeom]
    simp [idxOf]

/-- C4: `voronoi` fails (returns `none`, the model of
`MappingNotFoundError`) exactly when some network-global pore index
referenced by a geometry throat's connections is absent from the
geometry's pore map; when every referenced pore is present it returns
normally. -/
theorem voronoi_mapping_error_iff (net : Network) (geom : Geometry) :
    (voronoi net geom = none ↔
      ∃ t ∈ geom.throatMap,
        ((net.throatConns.getD t (0, 0)).1 ∉ geom.poreMap ∨
         (net.throatConns.getD t (0, 0)).2 ∉ geom.poreMap)) ∧
    ((∀ t ∈ geom.throatMap,
        (net.throatConns.getD t (0, 0)).1 ∈ geom.poreMap ∧
        (net.throatConns.getD t (0, 0)).2 ∈ geom.poreMap) →
      voronoi net geom = some (voronoiVal net geom)) :=
  ⟨voronoi_eq_none_iff net geom, voronoi_eq_some net geom⟩

/-- C4 witness: the throat referencing pore 2 (absent from the pore map)
makes `voronoi` fail, while the fully mapped example returns normally. -/
theorem voronoi_mapping_error_iff_witness :
    voronoi v4Net vGeom = none ∧
    voronoi vNet vGeom = some (voronoiVal vNet vGeom) := by
  constructor
  · refine (voronoi_mapping_error_iff v4Net vGeom).1.mpr ⟨0, by simp [vGeom], Or.inr ?_⟩
    have : (v4Net.throatConns.getD 0 (0, 0)).2 = 2 := by simp [v4Net]
    rw [this]
    simp [vGeom]
  · refine (voronoi_mapping_error_iff vNet vGeom).2 ?_
    intro t ht
    simp [vGeom] at ht
    subst ht
    simp [vNet, vGeom]

theorem getD_set_swap (l : List (ℕ × ℕ)) (t s : ℕ) :
    (l.set t (l.getD t (0, 0)).swap).getD s (0, 0) =
      if s = t then (l.getD t (0, 0)).swap else l.getD s (0, 0) := by
  by_cases hs : s = t
  · subst hs
    rw [if_pos rfl]
    by_cases hlt : s < l.length
    · rw [List.getD_eq_getElem?_getD, List.getElem?_set_self (by simpa using hlt)]
      rfl
    · rw [List.set_eq_of_length_le (by omega), List.getD_eq_default _ _ (by omega)]
      rfl
  · rw [if_neg hs, List.getD_eq_getElem?_getD,
      List.getElem?_set_ne (fun h => hs h.symm), ← List.getD_eq_getElem?_getD]

/-- C5: the value `voronoi` computes is unchanged when a throat's two
endpoint pore indices are swapped in the connection table (the sum of
the two magnitudes is commutative), including which inputs fail. -/
theorem voronoi_endpoint_swap (net net2 : Network) (geom : Geometry) (t : ℕ)
    (hswap : net2.throatConns =
      net.throatConns.set t (net.throatConns.getD t (0, 0)).swap) :
    voronoi net2 geom = voronoi net geom := by
  by_cases hQ : ∃ s ∈ geom.throatMap,
      ((net.throatConns.getD s (0, 0)).1 ∉ geom.poreMap ∨
       (net.throatConns.getD s (0, 0)).2 ∉ geom.poreMap)
  · have h2 : voronoi net geom = none := (voronoi_eq_none_iff net geom).mpr hQ
    have h1 : voronoi net2 geom = none := by
      refine (voronoi_eq_none_iff net2 geom).mpr ?_
      rw [hswap]
      obtain ⟨s, hs, hor⟩ := hQ
      refine ⟨s, hs, ?_⟩
      rw [getD_set_swap]
      by_cases hst : s = t
      · rw [if_pos hst, Prod.fst_swap, Prod.snd_swap]
        rw [hst] at hor
        exact hor.symm
      · rw [if_neg hst]
        exact hor
    rw [h1, h2]
  · have hP : ∀ s ∈ geom.throatMap,
        (net.throatConns.getD s (0, 0)).1 ∈ geom.poreMap ∧
        (net.throatConns.getD s (0, 0)).2 ∈ geom.poreMap := by
      intro s hs
      constructor
      · by_contra hc
        exact hQ ⟨s, hs, Or.inl hc⟩
      · by_contra hc
        exact hQ ⟨s, hs, Or.inr hc⟩
    have hP2 : ∀ s ∈ geom.throatMap,
        (net2.throatConns.getD s (0, 0)).1 ∈ geom.poreMap ∧
        (net2.throatConns.getD s (0, 0)).2 ∈ geom.poreMap := by
      intro s hs
      rw [hswap, getD_set_swap]
      by_cases hst : s = t
      · rw [if_pos hst]
        subst hst
        exact ⟨(hP s hs).2, (hP s hs).1⟩
      · rw [if_neg hst]
        exact hP s hs
    rw [voronoi_eq_some net geom hP, voronoi_eq_some net2 geom hP2]
    refine congrArg some ?_
    simp only [voronoiVal, hswap]
    apply List.map_congr_left
    intro i hi
    rw [getD_set_swap]
    by_cases hst : geom.throatMap.getD i 0 = t
    · rw [if_pos hst, hst, Prod.fst_swap, Prod.snd_swap, add_comm]
    · rw [if_neg hst]

/-- Example network identical to `vNet` but with the throat's endpoints
listed in the opposite order. -/
noncomputable def vNetSwap : Network where
  poreCoords := []
  throatConns := [(1, 0)]
  props := fun _ => []
  throatsIn := fun _ => []

/-- C5 witness: swapping the endpoint columns of the example's single
throat leaves `voronoi` unchanged. -/
theorem voronoi_endpoint_swap_witness :
    vNetSwap.throatConns =
      vNet.throatConns.set 0 (vNet.throatConns.getD 0 (0, 0)).swap ∧
    voronoi vNetSwap vGeom = voronoi vNet vGeom := by
  have hswap : vNetSwap.throatConns =
      vNet.throatConns.set 0 (vNet.throatConns.getD 0 (0, 0)).swap := by
    simp [vNet, vNetSwap]
  exact ⟨hswap, voronoi_endpoint_swap vNet vNetSwap vGeom 0 hswap⟩

/-- C6: the index-translation step maps each network-global pore index to
the position of its first matching entry in the geometry's pore map, and
for a geometry whose pore map is the identity permutation `voronoi`
coincides with the direct-indexing implementation. -/
theorem voronoi_identity_map_direct (net : Network) (geom : Geometry) (m : ℕ)
    (hpm : geom.poreMap = List.range m)
    (hin : ∀ t ∈ geom.throatMap,
      (net.throatConns.getD t (0, 0)).1 < m ∧ (net.throatConns.getD t (0, 0)).2 < m) :
    (∀ (l : List ℕ) (x j : ℕ), idxOf x l = some j →
      l[j]? = some x ∧ ∀ k, k < j → l[k]? ≠ some x) ∧
    voronoi net geom = some (voronoiDirect net geom) := by
  refine ⟨fun l x j h => (idxOf_eq_some_iff x j l).mp h, ?_⟩
  have hfound : ∀ t ∈ geom.throatMap,
      (net.throatConns.getD t (0, 0)).1 ∈ geom.poreMap ∧
      (net.throatConns.getD t (0, 0)).2 ∈ geom.poreMap := by
    intro t ht
    rw [hpm]
    simp only [List.mem_range]
    exact hin t ht
  rw [voronoi_eq_some net geom hfound]
  refine congrArg some ?_
  simp only [voronoiVal, voronoiDirect]
  apply List.map_congr_left
  intro i hi
  rw [List.mem_range] at hi
  have ht0 : geom.throatMap.getD i 0 ∈ geom.throatMap := by
    rw [List.getD_eq_getElem _ _ hi]
    exact List.getElem_mem hi
  have e1 : idxOfD (net.throatConns.getD (geom.throatMap.getD i 0) (0, 0)).1
      geom.poreMap = (net.throatConns.getD (geom.throatMap.getD i 0) (0, 0)).1 := by
    rw [idxOfD, hpm, idxOf_range _ _ (hin _ ht0).1]
    rfl
  have e2 : idxOfD (net.throatConns.getD (geom.throatMap.getD i 0) (0, 0)).2
      geom.poreMap = (net.throatConns.getD (geom.throatMap.getD i 0) (0, 0)).2 := by
    rw [idxOfD, hpm, idxOf_range _ _ (hin _ ht0).2]
    rfl
  rw [e1, e2]

/-- C6 witness: the identity-pore-map example, where `voronoi` equals the
direct-indexing variant. -/
theorem voronoi_identity_map_direct_witness :
    vGeom.poreMap = List.range 2 ∧
    (∀ t ∈ vGeom.throatMap,
      (vNet.throatConns.getD t (0, 0)).1 < 2 ∧ (vNet.throatConns.getD t (0, 0)).2 < 2) ∧
    voronoi vNet vGeom = some (voronoiDirect vNet vGeom) := by
  have hpm : vGeom.poreMap = List.range 2 := by
    simp only [vGeom]
    rfl
  have hin : ∀ t ∈ vGeom.throatMap,
      (vNet.throatConns.getD t (0, 0)).1 < 2 ∧ (vNet.throatConns.getD t (0, 0)).2 < 2 := by
    intro t ht
    simp [vGeom] at ht
    subst ht
    simp [vNet]
  exact ⟨hpm, hin, (voronoi_identity_map_direct vNet vGeom 2 hpm hin).2⟩

/-- C10 witness: in the two-throat scenario the non-geometry throat has
raw length -7 while the geometry's only throat has raw length 2, and no
warning is logged. -/
theorem straight_single_warning_witness :
    allThroatLengths c10Net "pore.diameter" = [-7, 2] ∧
    (∀ v ∈ straightRaw c10Net exGeom "pore.diameter", ¬v < 0) ∧
    (straight c10Net exGeom "pore.diameter").2.length ≤ 1 ∧
    (straight c10Net exGeom "pore.diameter").2 = [] := by
  have hnn : ∀ v ∈ straightRaw c10Net exGeom "pore.diameter", ¬v < 0 := by
    intro v hv
    rw [c10Net_raw, List.mem_singleton] at hv
    subst hv
    norm_num
  obtain ⟨h1, h2⟩ := straight_single_warning c10Net exGeom "pore.diameter"
  exact ⟨c10Net_all, hnn, h1, h2 hnn⟩

/-- Example network identical to `c1Net` on every field either function
reads, but different on unrelated property names and labels. -/
noncomputable def c7NetB : Network where
  poreCoords := [⟨0, 0, 0⟩, ⟨3, 0, 0⟩]
  throatConns := [(0, 1)]
  props := fun s => if s = "pore.diameter" then [1, 1] else [99]
  throatsIn := fun s => if s = "geo" then [0] else [7]

/-- C7: both functions leave the network and geometry unchanged — the
state-passing renderings return exactly the store they received — and
each is a pure function of the data it reads: networks and geometries
agreeing on the consumed fields produce identical outputs. -/
theorem throat_length_models_pure (net : Network) (geom : Geometry) (pd : String) :
    (straightRun net geom pd).1 = (net, geom) ∧
    (voronoiRun net geom).1 = (net, geom) ∧
    (∀ (net2 : Network) (geom2 : Geometry) (pd2 : String),
      net.throatsIn geom.name = net2.throatsIn geom2.name →
      net.throatConns = net2.throatConns →
      net.poreCoords = net2.poreCoords →
      net.props pd = net2.props pd2 →
      straight net geom pd = straight net2 geom2 pd2) ∧
    (∀ (net2 : Network) (geom2 : Geometry),
      net.throatConns = net2.throatConns →
      geom.poreMap = geom2.poreMap →
      geom.throatMap = geom2.throatMap →
      geom.poreCentroid = geom2.poreCentroid →
      geom.throatCentroid = geom2.throatCentroid →
      voronoi net geom = voronoi net2 geom2) := by
  refine ⟨rfl, rfl, ?_, ?_⟩
  · intro net2 geom2 pd2 h1 h2 h3 h4
    simp only [straight, straightRaw, allThroatLengths, h1, h2, h3, h4]
  · intro net2 geom2 h1 h2 h3 h4 h5
    simp only [voronoi, h1, h2, h3, h4, h5]

/-- C7 witness: a network differing from the scenario network only in
fields the functions never read yields the identical result, and the
store comes back unchanged. -/
theorem throat_length_models_pure_witness :
    (straightRun c1Net exGeom "pore.diameter").1 = (c1Net, exGeom) ∧
    (voronoiRun c1Net exGeom).1 = (c1Net, exGeom) ∧
    straight c1Net exGeom "pore.diameter" = straight c7NetB exGeom "pore.diameter" := by
  obtain ⟨h1, h2, h3, -⟩ := throat_length_models_pure c1Net exGeom "pore.diameter"
  refine ⟨h1, h2, h3 c7NetB exGeom "pore.diameter" ?_ ?_ ?_ ?_⟩
  · simp [c1Net, c7NetB, exGeom]
  · simp [c1Net, c7NetB]
  · simp [c1Net, c7NetB]
  · simp [c1Net, c7NetB]

set_option maxRecDepth 6000 in
/-- C8: Modelled from the spec: the dual cubic lattice generated with
shape [5,5,5] and two labelled sub-lattices has exactly 491 pores and
2590 throats, of which 275 pores are primary, 216 secondary and 1600
throats interconnect, together with the remaining per-label counts the
included test asserts (six face labels of 61 pores, 302 surface and 189
internal pores, 450 primary, 540 secondary, 900 surface and 1690
internal throats). -/
theorem cubicDual_test_counts :
    (dualPores 5).length = 491 ∧
    (dualThroats 5).length = 2590 ∧
    (dualPores 5).countP isPrimaryPore = 275 ∧
    (dualPores 5).countP isSecondaryPore = 216 ∧
    (interconnectThroats 5).length = 1600 ∧
    (dualPores 5).countP (isSurfacePore 5) = 302 ∧
    (dualPores 5).countP (fun p => !isSurfacePore 5 p) = 189 ∧
    ((dualPores 5).countP (onFace 5 0) = 61 ∧
     (dualPores 5).countP (onFace 5 1) = 61 ∧
     (dualPores 5).countP (onFace 5 2) = 61 ∧
     (dualPores 5).countP (onFace 5 3) = 61 ∧
     (dualPores 5).countP (onFace 5 4) = 61 ∧
     (dualPores 5).countP (onFace 5 5) = 61) ∧
    (primaryThroats 5).length = 450 ∧
    (secondaryThroats 5).length = 540 ∧
    (dualThroats 5).countP (isSurfaceThroat 5) = 900 ∧
    (dualThroats 5).countP (fun t => !isSurfaceThroat 5 t) = 1690 := by
  refine ⟨?_, ?_, ?_, ?_, ?_, ?_, ?_, ⟨?_, ?_, ?_, ?_, ?_, ?_⟩, ?_, ?_, ?_, ?_⟩
  · simp only [dualPores, primaryPores, secondaryPores, List.append_assoc,
      List.length_append]
    decide
  · simp only [dualThroats, primaryThroats, secondaryThroats, interconnectThroats,
      List.append_assoc, List.length_append]
    decide
  · simp only [dualPores, primaryPores, secondaryPores, List.append_assoc,
      List.countP_append]
    decide
  · simp only [dualPores, primaryPores, secondaryPores, List.append_assoc,
      List.countP_append]
    decide
  · simp only [interconnectThroats, List.append_assoc, List.length_append]
    decide
  · simp only [dualPores, primaryPores, secondaryPores, List.append_assoc,
      List.countP_append]
    decide
  · simp only [dualPores, primaryPores, secondaryPores, List.append_assoc,
      List.countP_append]
    decide
  · simp only [dualPores, primaryPores, secondaryPores, List.append_assoc,
      List.countP_append]
    decide
  · simp only [dualPores, primaryPores, secondaryPores, List.append_assoc,
      List.countP_append]
    decide
  · simp only [dualPores, primaryPores, secondaryPores, List.append_assoc,
      List.countP_append]
    decide
  · simp only [dualPores, primaryPores, secondaryPores, List.append_assoc,
      List.countP_append]
    decide
  · simp only [dualPores, primaryPores, secondaryPores, List.append_assoc,
      List.countP_append]
    decide
  · simp only [dualPores, primaryPores, secondaryPores, List.append_assoc,
      List.countP_append]
    decide
  · simp only [primaryThroats, List.append_assoc, List.length_append]
    decide
  · simp only [secondaryThroats, List.append_assoc, List.length_append]
    decide
  · simp only [dualThroats, primaryThroats, secondaryThroats, interconnectThroats,
      List.append_assoc, List.countP_append]
    decide
  · simp only [dualThroats, primaryThroats, secondaryThroats, interconnectThroats,
      List.append_assoc, List.countP_append]
    decide

end OpenPNM
